import Mathlib

/-!
Verification development for the captive-portal HTTP server
(`captive_http.py`).  Byte strings are modelled as lists of characters
(`Bytes`); all requests and responses in this code are ASCII.  Python
`bytes.split`, substring membership (`in`), dictionaries and truthiness
are embedded by the executable functions below, each translated from the
corresponding source lines.  Python exceptions (`ValueError`,
`IndexError`, `KeyError`, and the `NameError` raised by the undefined
variable on line 164) are modelled with `Except PyErr`.
-/

/-- Byte strings of the Python source, modelled as lists of characters. -/
abbrev Bytes := List Char

/-- Python exceptions that the embedded code can raise. -/
inductive PyErr where
  | valueError
  | indexError
  | keyError
  | nameError
  deriving DecidableEq, Repr

/-- Equality of embedded Python results is decidable. -/
instance {ε α : Type} [DecidableEq ε] [DecidableEq α] : DecidableEq (Except ε α) := fun a b =>
  match a, b with
  | Except.ok x, Except.ok y =>
    if h : x = y then isTrue (by rw [h]) else
      isFalse (by intro hc; injection hc; contradiction)
  | Except.error x, Except.error y =>
    if h : x = y then isTrue (by rw [h]) else
      isFalse (by intro hc; injection hc; contradiction)
  | Except.ok _, Except.error _ => isFalse (by intro hc; cases hc)
  | Except.error _, Except.ok _ => isFalse (by intro hc; cases hc)

/-- Test whether `pat` is an initial segment of `s` (used by `pySplit`
and `containsSub`). -/
def beginsWith : Bytes → Bytes → Bool
  | [], _ => true
  | _ :: _, [] => false
  | p :: ps, c :: cs => p = c && beginsWith ps cs

/-- Python substring membership `pat in s` for byte strings. -/
def containsSub (pat : Bytes) : Bytes → Bool
  | [] => pat.isEmpty
  | c :: cs => beginsWith pat (c :: cs) || containsSub pat cs

/-- Worker for `pySplit`: `acc` holds the (reversed) bytes of the field
currently being accumulated.  The `Nat` argument is recursion fuel;
every step consumes at least one input byte, so starting the fuel at
the input length makes the exhaustion case unreachable (it is there
only to keep the recursion structural). -/
def pySplitAux (sep : Bytes) : Nat → Bytes → Bytes → List Bytes
  | _, acc, [] => [acc.reverse]
  | 0, acc, s => [acc.reverse ++ s]
  | fuel + 1, acc, c :: rest =>
    if beginsWith sep (c :: rest) then
      acc.reverse :: pySplitAux sep fuel [] (List.drop (sep.length - 1) rest)
    else
      pySplitAux sep fuel (c :: acc) rest

/-- Python `b.split(sep)` for a non-empty separator `sep`: splits `b` at
each non-overlapping occurrence of `sep`, keeping empty fields. -/
def pySplit (sep b : Bytes) : List Bytes :=
  pySplitAux sep b.length [] b

/-- Python `dict` lookup `d.get(k, None)` for a dictionary built from the
listed key/value pairs in order (later duplicates overwrite earlier
ones, so the last binding wins). -/
def dictGet (d : List (Bytes × Bytes)) (k : Bytes) : Option Bytes :=
  match d with
  | [] => none
  | (k', v) :: rest =>
    match dictGet rest k with
    | some v' => some v'
    | none => if k' = k then some v else none

/-- Python truthiness of an optional byte string: `None` and `b""` are
falsy (this is what `all([ssid, password])` tests on line 175). -/
def truthy : Option Bytes → Bool
  | none => false
  | some b => !b.isEmpty

/-- Result of `parse_request` (line 10): the `ReqInfo` namedtuple. -/
structure ReqInfo where
  type : Bytes
  path : Bytes
  params : List (Bytes × Bytes)
  host : Bytes
  deriving DecidableEq, Repr

/-- Host values scanned by the list comprehension on line 131: for every
line containing `b"Host:"`, Python evaluates `line.split(b": ")[1]`,
raising `IndexError` on the first line where that index is absent. -/
def hostVals : List Bytes → Except PyErr (List Bytes)
  | [] => Except.ok []
  | line :: rest =>
    match (pySplit ": ".toList line).get? 1 with
    | none => Except.error PyErr.indexError
    | some v =>
      match hostVals rest with
      | Except.error e => Except.error e
      | Except.ok vs => Except.ok (v :: vs)

/-- Query parameter pairs (lines 132-139): each `param.split(b"=")` must
produce exactly two fields for the `key, val` unpacking, otherwise
Python raises `ValueError`. -/
def paramPairs : List Bytes → Except PyErr (List (Bytes × Bytes))
  | [] => Except.ok []
  | p :: rest =>
    match pySplit "=".toList p with
    | [k, v] =>
      match paramPairs rest with
      | Except.error e => Except.error e
      | Except.ok kvs => Except.ok ((k, v) :: kvs)
    | _ => Except.error PyErr.valueError

/-- HTTPServer.parse_request (lines 123-140).  The three-way unpacking of
the request line raises `ValueError` when it does not split into exactly
three space-separated fields; the `[...][0]` on line 131 raises
`IndexError` when no line contains a usable `Host:` field; query
parameters are parsed only when the query string is truthy. -/
def parse_request (req : Bytes) : Except PyErr ReqInfo :=
  let req_lines := pySplit "\r\n".toList req
  match pySplit " ".toList (req_lines.headD []) with
  | [req_type, full_path, _http_ver] =>
    let path := pySplit "?".toList full_path
    let base_path := path.headD []
    let query : Option Bytes := if path.length > 1 then some (path.getD 1 []) else none
    match hostVals (req_lines.filter (fun line => containsSub "Host:".toList line)) with
    | Except.error e => Except.error e
    | Except.ok hosts =>
      match hosts with
      | [] => Except.error PyErr.indexError
      | host :: _ =>
        match (match query with
               | some q => if q ≠ [] then paramPairs (pySplit "&".toList q) else Except.ok []
               | none => Except.ok []) with
        | Except.error e => Except.error e
        | Except.ok query_params =>
          Except.ok ⟨req_type, base_path, query_params, host⟩
  | _ => Except.error PyErr.valueError

/-- HTTPServer.is_valid_host (lines 119-121): a host is valid iff
splitting on `b"."` yields more than one field. -/
def is_valid_host (host : Bytes) : Bool :=
  (pySplit ".".toList host).length > 1

/-- Python `path.lstrip(b"/")` (line 191). -/
def lstrip_slash (b : Bytes) : Bytes :=
  b.dropWhile (fun c => c = '/')

/-- Headers built by HTTPServer.redirect (lines 192-193): the 307 status
line plus a `Location` header pointing at `http://<host>/<path with
leading slashes stripped>`. -/
def redirect_headers (host path : Bytes) : Bytes :=
  "HTTP/1.1 307 Temporary Redirect\r\n".toList ++
    "Location: http://".toList ++ host ++ "/".toList ++ lstrip_slash path ++ "\r\n".toList

/-- Body streamed by HTTPServer.redirect (line 195). -/
def redirect_body : Bytes :=
  "Redirecting".toList

/-- The 302 headers built on lines 178-180 for a successful login. -/
def login_headers (local_ip : Bytes) : Bytes :=
  "HTTP/1.1 302 OK\r\nLocation: http://".toList ++ local_ip ++ "/authenticating\r\n".toList

/-- Value returned by HTTPServer.check_route: the `(headers, base_path,
creds)` triple, plus a record of the `(host, path)` arguments when the
branch taken was a call to `self.redirect` (which streams its own
response as a side effect and returns `(None, None, None)`). -/
structure CheckOut where
  headers : Option Bytes
  base_path : Option Bytes
  creds : Option (Bytes × Bytes)
  redirectCall : Option (Bytes × Bytes)
  deriving DecidableEq, Repr

/-- Lines 155-185 of HTTPServer.check_route: the rules that run once the
host has been validated.  The non-GET/unknown-path branch (lines
163-166) evaluates `print(..., req_type, ...)` where `req_type` is an
undefined name in this scope, so it raises `NameError` before its
`return` statement is reached. -/
def check_route_after_host (local_ip : Bytes) (routes : List (Bytes × Bytes))
    (req : ReqInfo) : Except PyErr CheckOut :=
  if req.host ≠ local_ip then
    Except.ok ⟨none, none, none, some (local_ip, "/".toList)⟩
  else if req.type ≠ "GET".toList ∧ req.path ∉ routes.map Prod.fst then
    Except.error PyErr.nameError
  else if req.path = "/".toList ∨ req.path = "/authenticating".toList then
    Except.ok ⟨some "HTTP/1.1 200 OK\r\n".toList, some req.path, none, none⟩
  else if req.path = "/login".toList then
    let ssid := dictGet req.params "ssid".toList
    let password := dictGet req.params "password".toList
    if !(truthy ssid && truthy password) then
      Except.ok ⟨none, none, none, some (local_ip, "/".toList)⟩
    else
      Except.ok ⟨some (login_headers local_ip), some "/authenticating".toList,
        some (ssid.getD [], password.getD []), none⟩
  else
    Except.ok ⟨some "HTTP/1.1 404 Not Found\r\n".toList, some req.path, none, none⟩

/-- HTTPServer.check_route (lines 142-185) on an already-parsed request:
connectivity probes in connected mode, then host validation, then the
host-dependent rules of `check_route_after_host`. -/
def check_route_req (local_ip : Bytes) (is_connected : Bool)
    (routes : List (Bytes × Bytes)) (req : ReqInfo) : Except PyErr CheckOut :=
  if (req.path = "/generate_204".toList ∨ req.path = "/gen_204".toList) ∧ is_connected then
    Except.ok ⟨some "HTTP/1.1 204 No Content\r\n".toList, some req.path, none, none⟩
  else if !(is_valid_host req.host) then
    Except.ok ⟨some "HTTP/1.1 404 Not Found\r\n".toList, none, none, none⟩
  else
    check_route_after_host local_ip routes req

/-- The fixed transmission buffer size: one TCP/IP maximum segment
(line 203). -/
def MSS : Nat := 536

/-- The WriteConn namedtuple (line 11): remaining body source bytes, the
536-byte buffer, and the `[start, end)` send window into that buffer.
The Python body source ("read up to n bytes into a buffer") is modelled
by its remaining byte sequence; `readinto` consumes a `take`/`drop`
split of it. -/
structure WriteConn where
  body : Bytes
  buff : Bytes
  w0 : Nat
  w1 : Nat
  deriving DecidableEq, Repr

/-- HTTPServer.prepare_write (lines 199-212) minus the registry/poller
mutations: append `"\r\n"` to the headers, build the 536-byte buffer
initialised with the headers and zero padding, read body bytes into the
space after the headers, and set the send window. -/
def prepare_write_conn (body headers0 : Bytes) : WriteConn :=
  let headers := headers0 ++ "\r\n".toList
  let h := headers.length
  let bw := min (MSS - h) body.length
  { body := body.drop (MSS - h),
    buff := headers ++ body.take bw ++ List.replicate (MSS - h - bw) '\x00',
    w0 := 0,
    w1 := h + bw }

/-- HTTPServer.buff_advance (lines 217-230): after a full-window write,
refill the buffer from offset 0 with up to `MSS` body bytes (the unread
tail of the old buffer stays in place) and reset the window; after a
partial write, just advance the window start. -/
def buff_advance (c : WriteConn) (bytes_written : Nat) : WriteConn :=
  if bytes_written = c.w1 - c.w0 then
    let f := min MSS c.body.length
    { body := c.body.drop f,
      buff := c.body.take f ++ c.buff.drop f,
      w0 := 0,
      w1 := f }
  else
    { c with w0 := c.w0 + bytes_written }

/-- One HTTPServer.write_to step (lines 244-259) on the write state
alone.  The transport accepts `k` bytes this round, so the socket write
sends `min k (w1 - w0)` bytes of the current window.  If nothing was
written or the current fill end `w1` is below `MSS`, the connection is
closed (result `none`); otherwise `buff_advance` runs.  Returns the
bytes put on the wire and the surviving state. -/
def write_step (c : WriteConn) (k : Nat) : Bytes × Option WriteConn :=
  let bytes_written := min k (c.w1 - c.w0)
  let out := (c.buff.drop c.w0).take bytes_written
  if bytes_written = 0 ∨ c.w1 < MSS then
    (out, none)
  else
    (out, some (buff_advance c bytes_written))

/-- Drive `write_step` over a schedule of transport capacities `ks`,
concatenating everything put on the wire.  A `none` final state means
the connection was closed by `write_to`. -/
def run_writer (c : WriteConn) : List Nat → Bytes × Option WriteConn
  | [] => ([], some c)
  | k :: ks =>
    match write_step c k with
    | (out, none) => (out, none)
    | (out, some c') =>
      let r := run_writer c' ks
      (out ++ r.1, r.2)

/-- Poller interest registered for a socket (`select.POLLIN` /
`select.POLLOUT`). -/
inductive Interest where
  | pollin
  | pollout
  deriving DecidableEq, Repr

/-- Value bound in the route table or substituted by `read`: a static
file route (`self.routes` values) or the `conn_page` callable. -/
inductive RouteVal where
  | file (name : Bytes)
  | page
  deriving DecidableEq, Repr

/-- The HTTPServer object state: configuration (`local_ip`,
`is_connected`, `routes`), the external filesystem and rendered
`connected.html` content, and the per-connection registries `request`
(inbound buffers), `conns` (outbound write state), the poller's
registration map, and the transport handles' open flags.  Connections
are keyed by `id(socket)`, modelled as `Nat`. -/
structure ServerState where
  local_ip : Bytes
  is_connected : Bool
  routes : List (Bytes × Bytes)
  files : Bytes → Bytes
  conn_page : Bytes
  request : Nat → Option Bytes
  conns : Nat → Option WriteConn
  poll : Nat → Option Interest
  sockOpen : Nat → Bool

/-- Point update of a registry map. -/
def mapSet {α : Type} (m : Nat → Option α) (k : Nat) (v : Option α) : Nat → Option α :=
  fun x => if x = k then v else m x

/-- HTTPServer.close (lines 232-242): close the transport handle,
unregister from the poller (MicroPython `uselect.poll.unregister`
removes the entry if present and is a no-op otherwise), and delete the
`request` and `conns` entries guarded by membership tests. -/
def close_conn (st : ServerState) (sid : Nat) : ServerState :=
  { st with
    sockOpen := fun x => if x = sid then false else st.sockOpen x,
    poll := mapSet st.poll sid none,
    request := if (st.request sid).isSome then mapSet st.request sid none else st.request,
    conns := if (st.conns sid).isSome then mapSet st.conns sid none else st.conns }

/-- HTTPServer.prepare_write (lines 199-215) on the server state: store
the new `WriteConn` under the connection id, then ask the poller for
write-readiness.  `poller.modify` on an unregistered socket raises. -/
def prepare_write_st (st : ServerState) (sid : Nat) (body headers0 : Bytes) :
    ServerState × Except PyErr Unit :=
  let st1 := { st with conns := mapSet st.conns sid (some (prepare_write_conn body headers0)) }
  match st1.poll sid with
  | none => (st1, Except.error PyErr.keyError)
  | some _ => ({ st1 with poll := mapSet st1.poll sid (some Interest.pollout) }, Except.ok ())

/-- HTTPServer.send_response (lines 63-82): resolve the route value to a
body source (file contents, the `conn_page` content producer, or the
empty body for an unknown route) and hand it to `prepare_write`. -/
def send_response_st (st : ServerState) (sid : Nat) (route : Option RouteVal)
    (headers : Bytes) : ServerState × Except PyErr Unit :=
  let body : Bytes :=
    match route with
    | some (RouteVal.file name) => st.files name
    | some RouteVal.page => st.conn_page
    | none => []
  prepare_write_st st sid body headers

/-- Python `self.routes.get(base_path)` where `base_path` may be `None`
(rule 2 of check_route returns `None` as the base path). -/
def routes_get (routes : List (Bytes × Bytes)) : Option Bytes → Option Bytes
  | none => none
  | some k => dictGet routes k

/-- HTTPServer.check_route (lines 142-197) with its side effects: parse
the raw request, run the routing rules, and if the branch taken was a
`self.redirect(...)` call, build the 307 headers and stream the
"Redirecting" body through `prepare_write` before returning the
`(None, None, None)` triple. -/
def check_route_st (st : ServerState) (sid : Nat) (raw : Bytes) :
    ServerState × Except PyErr (Option Bytes × Option Bytes × Option (Bytes × Bytes)) :=
  match parse_request raw with
  | Except.error e => (st, Except.error e)
  | Except.ok req =>
    match check_route_req st.local_ip st.is_connected st.routes req with
    | Except.error e => (st, Except.error e)
    | Except.ok out =>
      match out.redirectCall with
      | none => (st, Except.ok (out.headers, out.base_path, out.creds))
      | some hp =>
        let r := prepare_write_st st sid redirect_body (redirect_headers hp.1 hp.2)
        (r.1, match r.2 with
              | Except.error e => Except.error e
              | Except.ok _ => Except.ok (out.headers, out.base_path, out.creds))

/-- Route value chosen by HTTPServer.read lines 110-115: the static
route table binding in captive mode, the live `conn_page` producer once
connected. -/
def choose_route (st : ServerState) (base_path : Option Bytes) : Option RouteVal :=
  if !st.is_connected then (routes_get st.routes base_path).map RouteVal.file
  else some RouteVal.page

/-- HTTPServer.read lines 104-117, after the request has been popped
from the inbound registry: run `check_route`; unless the response was
already streamed by `redirect` (headers `None`), resolve the route
value and stream the response; report the credentials. -/
def read_complete (st : ServerState) (sid : Nat) (req : Bytes) :
    ServerState × Except PyErr (Option (Bytes × Bytes)) :=
  match check_route_st st sid req with
  | (st3, Except.error e) => (st3, Except.error e)
  | (st3, Except.ok (none, _, _)) => (st3, Except.ok none)
  | (st3, Except.ok (some headers, base_path, creds)) =>
    match send_response_st st3 sid (choose_route st3 base_path) headers with
    | (st4, Except.error e) => (st4, Except.error e)
    | (st4, Except.ok _) => (st4, Except.ok creds)

/-- HTTPServer.read (lines 84-117).  `data` is what `s.read()` returned;
an empty read closes the connection.  Otherwise the data is appended to
the inbound buffer; if this chunk's trailing four bytes are not
`b"\r\n\r\n"` the handler waits for more.  On completion the buffer is
popped and `read_complete` handles the rest.  Exceptions propagate with
whatever state mutations already happened. -/
def read_st (st : ServerState) (sid : Nat) (data : Bytes) :
    ServerState × Except PyErr (Option (Bytes × Bytes)) :=
  if data = [] then
    (close_conn st sid, Except.ok none)
  else
    let st1 := { st with
      request := mapSet st.request sid (some ((st.request sid).getD [] ++ data)) }
    if data.drop (data.length - 4) ≠ "\r\n\r\n".toList then
      (st1, Except.ok none)
    else
      let req := (st1.request sid).getD []
      let st2 := { st1 with request := mapSet st1.request sid none }
      read_complete st2 sid req

/-- HTTPServer.write_to (lines 244-259) on the server state: look up the
write state (`KeyError` if absent), run one `write_step`, and either
close the connection or store the advanced state. -/
def write_to_st (st : ServerState) (sid : Nat) (k : Nat) :
    ServerState × Except PyErr Unit :=
  match st.conns sid with
  | none => (st, Except.error PyErr.keyError)
  | some c =>
    match write_step c k with
    | (_, none) => (close_conn st sid, Except.ok ())
    | (_, some c') => ({ st with conns := mapSet st.conns sid (some c') }, Except.ok ())

/-- HTTPServer.accept (lines 40-51): register the fresh client socket
for read-readiness. -/
def accept_st (st : ServerState) (sid : Nat) : ServerState :=
  { st with
    poll := mapSet st.poll sid (some Interest.pollin),
    sockOpen := fun x => if x = sid then true else st.sockOpen x }

/-- HTTPServer.set_ip (lines 33-38): the external association callback
flips the server to connected mode. -/
def set_ip_st (st : ServerState) (new_ip : Bytes) : ServerState :=
  { st with local_ip := new_ip, is_connected := true }

/-- Reactor readiness events dispatched to HTTPServer.handle, plus the
external mode-change call that may happen between events. -/
inductive Event where
  | accept (sid : Nat)
  | readE (sid : Nat) (data : Bytes)
  | writeE (sid : Nat) (k : Nat)
  | setIp (new_ip : Bytes)

/-- HTTPServer.handle (lines 261-280): dispatch one readiness event and
report extracted credentials upward. -/
def handle_st (st : ServerState) : Event → ServerState × Except PyErr (Option (Bytes × Bytes))
  | Event.accept sid => (accept_st st sid, Except.ok none)
  | Event.readE sid data => read_st st sid data
  | Event.writeE sid k =>
    let r := write_to_st st sid k
    (r.1, match r.2 with
          | Except.error e => Except.error e
          | Except.ok _ => Except.ok none)
  | Event.setIp ip => (set_ip_st st ip, Except.ok none)

/-- The reactor only delivers events matching a socket's registered
interest; `accept` concerns a fresh, unregistered socket id. -/
def validEvent (st : ServerState) : Event → Bool
  | Event.accept sid => (st.poll sid).isNone
  | Event.readE sid _ => decide (st.poll sid = some Interest.pollin)
  | Event.writeE sid _ => decide (st.poll sid = some Interest.pollout)
  | Event.setIp _ => true

/-- Dispatch one event if the reactor could deliver it in this state. -/
def stepEv (st : ServerState) (ev : Event) : ServerState :=
  if validEvent st ev then (handle_st st ev).1 else st

/-- Run a sequence of dispatched events. -/
def runEvents (st : ServerState) : List Event → ServerState
  | [] => st
  | ev :: evs => runEvents (stepEv st ev) evs

/-- HTTPServer.__init__ (lines 17-31) followed by the startup
`routefile` calls: empty registries, captive mode. -/
def initHTTP (local_ip : Bytes) (routes : List (Bytes × Bytes))
    (files : Bytes → Bytes) (page : Bytes) : ServerState :=
  { local_ip := local_ip,
    is_connected := false,
    routes := routes,
    files := files,
    conn_page := page,
    request := fun _ => none,
    conns := fun _ => none,
    poll := fun _ => none,
    sockOpen := fun _ => false }

/-- Registry exclusivity invariant, strengthened with the poller
interest each kind of entry implies: an inbound buffer exists only for
read-registered sockets, outbound write state only for write-registered
ones. -/
def RegInv (st : ServerState) : Prop :=
  ∀ sid, ((st.request sid).isSome → st.poll sid = some Interest.pollin) ∧
    ((st.conns sid).isSome → st.poll sid = some Interest.pollout)

/-- Invariant of the standalone writer loop used for the streaming
round-trip claim. -/
def WriterInv (c : WriteConn) : Prop :=
  c.w0 = 0 ∧ c.buff.length = MSS ∧ c.w1 ≤ MSS ∧ (c.w1 = MSS ∨ c.body = [])

theorem mapSet_self {α : Type} (m : Nat → Option α) (k : Nat) (v : Option α) :
    mapSet m k v k = v := by
  simp [mapSet]

theorem mapSet_other {α : Type} (m : Nat → Option α) (k : Nat) (v : Option α)
    (t : Nat) (ht : t ≠ k) : mapSet m k v t = m t := by
  simp [mapSet, ht]

theorem mapSet_mapSet {α : Type} (m : Nat → Option α) (k : Nat) (v w : Option α) :
    mapSet (mapSet m k v) k w = mapSet m k w := by
  funext x
  unfold mapSet
  split <;> rfl

theorem close_request_self (st : ServerState) (sid : Nat) :
    (close_conn st sid).request sid = none := by
  show (if (st.request sid).isSome then mapSet st.request sid none else st.request) sid = none
  split
  · simp [mapSet]
  · rename_i h
    cases hr : st.request sid
    · rfl
    · exact absurd (by rw [hr]; rfl) h

theorem close_conns_self (st : ServerState) (sid : Nat) :
    (close_conn st sid).conns sid = none := by
  show (if (st.conns sid).isSome then mapSet st.conns sid none else st.conns) sid = none
  split
  · simp [mapSet]
  · rename_i h
    cases hr : st.conns sid
    · rfl
    · exact absurd (by rw [hr]; rfl) h

theorem close_request_other (st : ServerState) (sid t : Nat) (ht : t ≠ sid) :
    (close_conn st sid).request t = st.request t := by
  show (if (st.request sid).isSome then mapSet st.request sid none else st.request) t = _
  split
  · exact mapSet_other _ _ _ _ ht
  · rfl

theorem close_conns_other (st : ServerState) (sid t : Nat) (ht : t ≠ sid) :
    (close_conn st sid).conns t = st.conns t := by
  show (if (st.conns sid).isSome then mapSet st.conns sid none else st.conns) t = _
  split
  · exact mapSet_other _ _ _ _ ht
  · rfl

/-- Claim C4: closing a connection twice is a no-op the second time. -/
theorem c4_close_idempotent (st : ServerState) (sid : Nat) :
    close_conn (close_conn st sid) sid = close_conn st sid := by
  have hreq := close_request_self st sid
  have hcon := close_conns_self st sid
  show ({ close_conn st sid with
    sockOpen := fun x => if x = sid then false else (close_conn st sid).sockOpen x,
    poll := mapSet (close_conn st sid).poll sid none,
    request := if ((close_conn st sid).request sid).isSome then
        mapSet (close_conn st sid).request sid none else (close_conn st sid).request,
    conns := if ((close_conn st sid).conns sid).isSome then
        mapSet (close_conn st sid).conns sid none else (close_conn st sid).conns } : ServerState)
    = close_conn st sid
  rw [hreq, hcon]
  simp only [Option.isSome_none, Bool.false_eq_true, if_false]
  show ({ close_conn st sid with
    sockOpen := fun x => if x = sid then false else (close_conn st sid).sockOpen x,
    poll := mapSet (close_conn st sid).poll sid none } : ServerState) = close_conn st sid
  have hso : (fun x => if x = sid then false else (close_conn st sid).sockOpen x)
      = (close_conn st sid).sockOpen := by
    funext x
    by_cases hx : x = sid <;> simp [close_conn, hx]
  have hpl : mapSet (close_conn st sid).poll sid none = (close_conn st sid).poll := by
    show mapSet (mapSet st.poll sid none) sid none = mapSet st.poll sid none
    exact mapSet_mapSet _ _ _ _
  rw [hso, hpl]

/-- Claim C1: the completion test on line 98 examines `data[-4:]` — the
trailing bytes of the chunk just read — not the accumulated buffer.
Delivering a well-formed request in two reads whose final chunk is a
single byte leaves the accumulated buffer ending in the terminator,
yet the request is never reported complete (the buffer entry survives
and no response state is created), while the same bytes in one read
complete and produce a response. -/
theorem c1_read_completion_code_bug :
    (let st0 := stepEv (initHTTP "1.2".toList [] (fun _ => []) []) (Event.accept 1);
     let part1 : Bytes := "GET /q HTTP/1.1\r\nHost: 1.2\r\n\r".toList;
     let part2 : Bytes := "\n".toList;
     let full := part1 ++ part2;
     let stSplit := stepEv (stepEv st0 (Event.readE 1 part1)) (Event.readE 1 part2);
     let stWhole := stepEv st0 (Event.readE 1 full);
     full.drop (full.length - 4) = "\r\n\r\n".toList ∧
     stSplit.request 1 = some full ∧
     stSplit.conns 1 = none ∧
     stWhole.request 1 = none ∧
     (stWhole.conns 1).isSome = true) := by
  decide

/-- Claim C5: a non-GET request to an unbound path that passed the
probe, host-validity and host-match rules reaches line 164, where the
undefined name `req_type` raises `NameError` instead of returning the
404 status line. -/
theorem c5_nonget_unknown_nameerror :
    is_valid_host "192.168.4.1".toList = true ∧
    check_route_req "192.168.4.1".toList false []
      ⟨"POST".toList, "/x".toList, [], "192.168.4.1".toList⟩ =
      Except.error PyErr.nameError := by
  decide

/-- Claim C2 counterexample: headers `b""` (so `b"\r\n"` after line 201)
with a one-byte body give a first fill of 3 bytes, below `MSS`; a
socket write accepting a single byte then satisfies line 252's
`write_range[1] < 536` test, so the connection is closed after emitting
one byte — the remaining header byte and the body byte are dropped. -/
theorem c2_roundtrip_counterexample :
    (run_writer (prepare_write_conn "A".toList []) [1]).2 = none ∧
    (run_writer (prepare_write_conn "A".toList []) [1]).1 ≠
      ([] : Bytes) ++ "\r\n".toList ++ "A".toList := by
  decide

/-- Claim C3 counterexample: a completed request whose request line has
only two space-separated fields makes `parse_request` raise
`ValueError`; the exception escapes `handle` (the dispatcher returns it
rather than a 404/400 response), no response state is created, and the
connection is left open rather than closed. -/
theorem c3_malformed_counterexample :
    (let st0 := stepEv (initHTTP "1.2".toList [] (fun _ => []) []) (Event.accept 1);
     let d : Bytes := "GET /\r\nHost: 1.2\r\n\r\n".toList;
     (handle_st st0 (Event.readE 1 d)).2 = Except.error PyErr.valueError ∧
     (handle_st st0 (Event.readE 1 d)).1.conns 1 = none ∧
     (handle_st st0 (Event.readE 1 d)).1.sockOpen 1 = true) := by
  decide

/-- Claim C6 counterexample: both `ssid` and `password` appear in the
query parameters, but `ssid` is bound to the empty byte string; line
175's truthiness test then takes the redirect branch, so no 302
response and no credentials are produced, contrary to the claim's
"if both appear" reading. -/
theorem c6_login_counterexample :
    (let params : List (Bytes × Bytes) := [("ssid".toList, []), ("password".toList, "x".toList)];
     (dictGet params "ssid".toList).isSome = true ∧
     (dictGet params "password".toList).isSome = true ∧
     check_route_req "1.2".toList false []
       ⟨"GET".toList, "/login".toList, params, "1.2".toList⟩ =
       Except.ok ⟨none, none, none, some ("1.2".toList, "/".toList)⟩) := by
  decide

/-- Claim C7 counterexample: in connected mode a connectivity-probe
request with a valid, mismatched Host header is answered by rule 1 with
204 No Content and no redirect call, not by the claimed 307 redirect. -/
theorem c7_redirect_counterexample :
    is_valid_host "evil.com".toList = true ∧
    "evil.com".toList ≠ "192.168.4.1".toList ∧
    check_route_req "192.168.4.1".toList true []
      ⟨"GET".toList, "/generate_204".toList, [], "evil.com".toList⟩ =
      Except.ok ⟨some "HTTP/1.1 204 No Content\r\n".toList,
        some "/generate_204".toList, none, none⟩ := by
  decide

theorem check_route_login_eq (lip : Bytes) (conn : Bool) (routes : List (Bytes × Bytes))
    (params : List (Bytes × Bytes)) (hvalid : is_valid_host lip = true) :
    check_route_req lip conn routes ⟨"GET".toList, "/login".toList, params, lip⟩ =
      (if !(truthy (dictGet params "ssid".toList) && truthy (dictGet params "password".toList)) then
        Except.ok ⟨none, none, none, some (lip, "/".toList)⟩
      else
        Except.ok ⟨some (login_headers lip), some "/authenticating".toList,
          some ((dictGet params "ssid".toList).getD [], (dictGet params "password".toList).getD []),
          none⟩) := by
  have e1 : (("/login".toList : Bytes) = "/generate_204".toList) = False := by
    simp only [eq_iff_iff, iff_false]; decide
  have e2 : (("/login".toList : Bytes) = "/gen_204".toList) = False := by
    simp only [eq_iff_iff, iff_false]; decide
  have e4 : (("/login".toList : Bytes) = "/".toList) = False := by
    simp only [eq_iff_iff, iff_false]; decide
  have e5 : (("/login".toList : Bytes) = "/authenticating".toList) = False := by
    simp only [eq_iff_iff, iff_false]; decide
  simp [check_route_req, check_route_after_host, e1, e2, e4, e5, hvalid]

/-- Claim C6 (amended): on a GET to `/login` with matching, valid Host,
the resolver returns the 302 response with Location
`http://<own address>/authenticating` and the credentials pair exactly
when both `ssid` and `password` are present with non-empty values;
otherwise (either one missing or empty) it calls `redirect` toward the
server's own root and returns no credentials. -/
theorem c6_login_amended (lip : Bytes) (conn : Bool) (routes : List (Bytes × Bytes))
    (params : List (Bytes × Bytes)) (hvalid : is_valid_host lip = true) :
    (∀ s p, dictGet params "ssid".toList = some s → s ≠ [] →
       dictGet params "password".toList = some p → p ≠ [] →
       check_route_req lip conn routes ⟨"GET".toList, "/login".toList, params, lip⟩ =
         Except.ok ⟨some (login_headers lip), some "/authenticating".toList, some (s, p), none⟩) ∧
    ((truthy (dictGet params "ssid".toList) && truthy (dictGet params "password".toList)) = false →
       check_route_req lip conn routes ⟨"GET".toList, "/login".toList, params, lip⟩ =
         Except.ok ⟨none, none, none, some (lip, "/".toList)⟩) := by
  rw [check_route_login_eq lip conn routes params hvalid]
  constructor
  · intro s p hs hsne hp hpne
    have hse : s.isEmpty = false := by
      cases s
      · exact absurd rfl hsne
      · rfl
    have hpe : p.isEmpty = false := by
      cases p
      · exact absurd rfl hpne
      · rfl
    rw [hs, hp]
    simp [truthy, hse, hpe]
  · intro hf
    rw [hf]
    simp

theorem c6_login_amended_witness :
    check_route_req "1.2".toList false []
      ⟨"GET".toList, "/login".toList,
        [("ssid".toList, "Home".toList), ("password".toList, "secret".toList)], "1.2".toList⟩ =
      Except.ok ⟨some (login_headers "1.2".toList), some "/authenticating".toList,
        some ("Home".toList, "secret".toList), none⟩ :=
  (c6_login_amended "1.2".toList false []
      [("ssid".toList, "Home".toList), ("password".toList, "secret".toList)] (by decide)).1
    "Home".toList "secret".toList (by decide) (by decide) (by decide) (by decide)

/-- Claim C10: an `ssid` or `password` parameter bound to the empty
byte string is treated as missing (redirect to the server's own root,
no credentials), and more generally no credentials result ever carries
an empty ssid or password. -/
theorem c10_empty_credentials :
    (∀ (lip : Bytes) (conn : Bool) (routes params : List (Bytes × Bytes)),
       is_valid_host lip = true →
       (dictGet params "ssid".toList = some [] ∨ dictGet params "password".toList = some []) →
       check_route_req lip conn routes ⟨"GET".toList, "/login".toList, params, lip⟩ =
         Except.ok ⟨none, none, none, some (lip, "/".toList)⟩) ∧
    (∀ (lip : Bytes) (conn : Bool) (routes : List (Bytes × Bytes)) (req : ReqInfo)
       (out : CheckOut) (s p : Bytes),
       check_route_req lip conn routes req = Except.ok out →
       out.creds = some (s, p) → s ≠ [] ∧ p ≠ []) := by
  constructor
  · intro lip conn routes params hv hemp
    rw [check_route_login_eq lip conn routes params hv]
    have hf : (truthy (dictGet params "ssid".toList) &&
        truthy (dictGet params "password".toList)) = false := by
      rcases hemp with h | h <;> rw [h] <;> simp [truthy]
    rw [hf]
    simp
  · intro lip conn routes req out s p h hc
    simp only [check_route_req, check_route_after_host] at h
    split at h
    · injection h with h2; rw [← h2] at hc; simp at hc
    · split at h
      · injection h with h2; rw [← h2] at hc; simp at hc
      · split at h
        · injection h with h2; rw [← h2] at hc; simp at hc
        · split at h
          · exact absurd h (by simp)
          · split at h
            · injection h with h2; rw [← h2] at hc; simp at hc
            · split at h
              · split at h
                · injection h with h2; rw [← h2] at hc; simp at hc
                · rename_i hcond
                  injection h with h2
                  rw [← h2] at hc
                  simp only [CheckOut.creds] at hc
                  injection hc with hc2
                  have hand : (truthy (dictGet req.params "ssid".toList) &&
                      truthy (dictGet req.params "password".toList)) = true := by
                    revert hcond
                    cases truthy (dictGet req.params "ssid".toList) &&
                        truthy (dictGet req.params "password".toList) <;> simp
                  rw [Bool.and_eq_true] at hand
                  obtain ⟨hts, htp⟩ := hand
                  cases hdgs : dictGet req.params "ssid".toList with
                  | none => rw [hdgs] at hts; simp [truthy] at hts
                  | some sv =>
                    cases hdgp : dictGet req.params "password".toList with
                    | none => rw [hdgp] at htp; simp [truthy] at htp
                    | some pv =>
                      rw [hdgs] at hts
                      rw [hdgp] at htp
                      simp only [truthy, Bool.not_eq_true'] at hts htp
                      rw [hdgs, hdgp] at hc2
                      simp only [Option.getD_some] at hc2
                      injection hc2 with hs2 hp2
                      constructor
                      · rw [← hs2]
                        intro hnil
                        rw [hnil] at hts
                        simp at hts
                      · rw [← hp2]
                        intro hnil
                        rw [hnil] at htp
                        simp at htp
              · injection h with h2; rw [← h2] at hc; simp at hc

theorem c10_empty_credentials_witness :
    check_route_req "1.2".toList false []
      ⟨"GET".toList, "/login".toList,
        [("ssid".toList, "Home".toList), ("password".toList, [])], "1.2".toList⟩ =
      Except.ok ⟨none, none, none, some ("1.2".toList, "/".toList)⟩ :=
  c10_empty_credentials.1 "1.2".toList false []
    [("ssid".toList, "Home".toList), ("password".toList, [])] (by decide) (Or.inr (by decide))

/-- Claim C8: outside the probe rule, host validity is decided exactly
by the number of dot-separated fields of the Host header: fewer than
two yields the immediate 404 with no base path, two or more hands the
request to the remaining rules. -/
theorem c8_host_validation (lip : Bytes) (conn : Bool) (routes : List (Bytes × Bytes))
    (req : ReqInfo)
    (hprobe : ¬((req.path = "/generate_204".toList ∨ req.path = "/gen_204".toList) ∧ conn)) :
    (¬ 2 ≤ (pySplit ".".toList req.host).length →
       check_route_req lip conn routes req =
         Except.ok ⟨some "HTTP/1.1 404 Not Found\r\n".toList, none, none, none⟩) ∧
    (2 ≤ (pySplit ".".toList req.host).length →
       check_route_req lip conn routes req = check_route_after_host lip routes req) := by
  constructor <;> intro hlab
  · have hv : is_valid_host req.host = false := by
      simp only [is_valid_host, decide_eq_false_iff_not]
      omega
    unfold check_route_req
    rw [if_neg hprobe, hv]
    simp
  · have hv : is_valid_host req.host = true := by
      simp only [is_valid_host, decide_eq_true_eq]
      omega
    unfold check_route_req
    rw [if_neg hprobe, hv]
    simp

theorem c8_host_validation_witness :
    (¬ 2 ≤ (pySplit ".".toList ("localhost".toList : Bytes)).length →
       check_route_req "1.2".toList false []
         ⟨"GET".toList, "/x".toList, [], "localhost".toList⟩ =
         Except.ok ⟨some "HTTP/1.1 404 Not Found\r\n".toList, none, none, none⟩) ∧
    (2 ≤ (pySplit ".".toList ("localhost".toList : Bytes)).length →
       check_route_req "1.2".toList false []
         ⟨"GET".toList, "/x".toList, [], "localhost".toList⟩ =
         check_route_after_host "1.2".toList [] ⟨"GET".toList, "/x".toList, [], "localhost".toList⟩) :=
  c8_host_validation "1.2".toList false [] ⟨"GET".toList, "/x".toList, [], "localhost".toList⟩
    (by decide)

/-- Claim C7 (amended): for a request that is not a connectivity probe
in connected mode, a valid Host header different from the server's own
address takes the `redirect(s, local_ip, b"/")` branch: no headers or
credentials are returned, and the streamed response is the 307 with
Location `http://<own address>/` and body "Redirecting". -/
theorem c7_redirect_amended (lip : Bytes) (conn : Bool) (routes : List (Bytes × Bytes))
    (req : ReqInfo)
    (hprobe : ¬((req.path = "/generate_204".toList ∨ req.path = "/gen_204".toList) ∧ conn))
    (hvalid : is_valid_host req.host = true)
    (hm : req.host ≠ lip) :
    check_route_req lip conn routes req = Except.ok ⟨none, none, none, some (lip, "/".toList)⟩ ∧
    redirect_headers lip "/".toList =
      "HTTP/1.1 307 Temporary Redirect\r\n".toList ++ "Location: http://".toList ++
        lip ++ "/\r\n".toList ∧
    redirect_body = "Redirecting".toList := by
  refine ⟨?_, ?_, rfl⟩
  · unfold check_route_req check_route_after_host
    rw [if_neg hprobe, hvalid]
    simp [hm]
  · unfold redirect_headers
    have h2 : lstrip_slash "/".toList = [] := by decide
    rw [h2, List.append_nil, List.append_assoc]
    congr 1

theorem c7_redirect_amended_witness :
    check_route_req "192.168.4.1".toList false []
      ⟨"GET".toList, "/".toList, [], "evil.com".toList⟩ =
      Except.ok ⟨none, none, none, some ("192.168.4.1".toList, "/".toList)⟩ ∧
    redirect_headers "192.168.4.1".toList "/".toList =
      "HTTP/1.1 307 Temporary Redirect\r\n".toList ++ "Location: http://".toList ++
        "192.168.4.1".toList ++ "/\r\n".toList ∧
    redirect_body = "Redirecting".toList :=
  c7_redirect_amended "192.168.4.1".toList false [] ⟨"GET".toList, "/".toList, [], "evil.com".toList⟩
    (by decide) (by decide) (by decide)

/-- Claim C3 (amended): handling a completed malformed request does not
produce a 404/400 response; `parse_request` raises, the exception
propagates out of `read` (and hence out of the dispatcher, which has no
handler), the connection is neither answered nor closed, its inbound
buffer has been cleared by the `pop` on line 104, and every other
connection's state is untouched. -/
theorem c3_malformed_amended (st : ServerState) (sid : Nat) (data : Bytes) (e : PyErr)
    (hne : data ≠ [])
    (hterm : data.drop (data.length - 4) = "\r\n\r\n".toList)
    (hparse : parse_request ((st.request sid).getD [] ++ data) = Except.error e) :
    (read_st st sid data).2 = Except.error e ∧
    (read_st st sid data).1.conns = st.conns ∧
    (read_st st sid data).1.poll = st.poll ∧
    (read_st st sid data).1.sockOpen = st.sockOpen ∧
    (read_st st sid data).1.request sid = none ∧
    ∀ t, t ≠ sid → (read_st st sid data).1.request t = st.request t := by
  have hread : read_st st sid data =
      ({ st with request := (mapSet (mapSet st.request sid (some ((st.request sid).getD [] ++ data))) sid none) }, Except.error e) := by
    unfold read_st
    rw [if_neg hne, if_neg (by simp [hterm])]
    simp only [read_complete, check_route_st, mapSet_self, Option.getD_some, hparse]
  rw [hread]
  refine ⟨rfl, rfl, rfl, rfl, ?_, ?_⟩
  · exact mapSet_self _ _ _
  · intro t ht
    show mapSet (mapSet st.request sid (some ((st.request sid).getD [] ++ data))) sid none t =
      st.request t
    rw [mapSet_other _ _ _ _ ht, mapSet_other _ _ _ _ ht]

theorem c3_malformed_amended_witness :
    (read_st (initHTTP "1.2".toList [] (fun _ => []) []) 0 "GET /\r\nHost: 1.2\r\n\r\n".toList).2 =
      Except.error PyErr.valueError ∧
    (read_st (initHTTP "1.2".toList [] (fun _ => []) []) 0
        "GET /\r\nHost: 1.2\r\n\r\n".toList).1.conns =
      (initHTTP "1.2".toList [] (fun _ => []) []).conns ∧
    (read_st (initHTTP "1.2".toList [] (fun _ => []) []) 0
        "GET /\r\nHost: 1.2\r\n\r\n".toList).1.poll =
      (initHTTP "1.2".toList [] (fun _ => []) []).poll ∧
    (read_st (initHTTP "1.2".toList [] (fun _ => []) []) 0
        "GET /\r\nHost: 1.2\r\n\r\n".toList).1.sockOpen =
      (initHTTP "1.2".toList [] (fun _ => []) []).sockOpen ∧
    (read_st (initHTTP "1.2".toList [] (fun _ => []) []) 0
        "GET /\r\nHost: 1.2\r\n\r\n".toList).1.request 0 = none ∧
    ∀ t, t ≠ 0 →
      (read_st (initHTTP "1.2".toList [] (fun _ => []) []) 0
          "GET /\r\nHost: 1.2\r\n\r\n".toList).1.request t =
        (initHTTP "1.2".toList [] (fun _ => []) []).request t :=
  c3_malformed_amended (initHTTP "1.2".toList [] (fun _ => []) []) 0
    "GET /\r\nHost: 1.2\r\n\r\n".toList PyErr.valueError (by decide) (by decide) (by decide)

theorem run_writer_all_mss (ks : List Nat) : ∀ c : WriteConn,
    WriterInv c → (∀ k ∈ ks, k = MSS) → c.body.length + c.w1 + 1 ≤ ks.length →
    run_writer c ks = (c.buff.take c.w1 ++ c.body, none) := by
  induction ks with
  | nil =>
    intro c _ _ hlen
    simp at hlen
  | cons k ks ih =>
    intro c hinv hks hlen
    obtain ⟨hw0, hbuf, hw1le, hlast⟩ := hinv
    have hk : k = MSS := hks k (List.mem_cons_self k ks)
    have hn : min k (c.w1 - c.w0) = c.w1 := by
      rw [hk, hw0, Nat.sub_zero]
      exact Nat.min_eq_right hw1le
    by_cases hcase : c.w1 = MSS
    · -- full window: an MSS-sized write consumes it and buff_advance refills
      have hne0 : ¬(c.w1 = 0 ∨ c.w1 < MSS) := by
        rw [hcase]
        simp [MSS]
      have hadv : buff_advance c c.w1 =
          ⟨c.body.drop (min MSS c.body.length),
           c.body.take (min MSS c.body.length) ++ c.buff.drop (min MSS c.body.length),
           0, min MSS c.body.length⟩ := by
        unfold buff_advance
        rw [hw0, Nat.sub_zero, if_pos rfl]
      have hstep : write_step c k = ((c.buff.drop c.w0).take c.w1, some (buff_advance c c.w1)) := by
        unfold write_step
        rw [hn, if_neg hne0]
      have hfle : min MSS c.body.length ≤ c.body.length := Nat.min_le_right _ _
      have hfleM : min MSS c.body.length ≤ MSS := Nat.min_le_left _ _
      have htakelen : (c.body.take (min MSS c.body.length)).length = min MSS c.body.length := by
        rw [List.length_take]
        exact Nat.min_eq_left hfle
      have hinv' : WriterInv (buff_advance c c.w1) := by
        rw [hadv]
        refine ⟨rfl, ?_, hfleM, ?_⟩
        · show (c.body.take (min MSS c.body.length) ++ c.buff.drop (min MSS c.body.length)).length = MSS
          rw [List.length_append, htakelen, List.length_drop, hbuf]
          omega
        · by_cases hbl : MSS ≤ c.body.length
          · left
            show min MSS c.body.length = MSS
            exact Nat.min_eq_left hbl
          · right
            show c.body.drop (min MSS c.body.length) = []
            have : min MSS c.body.length = c.body.length := Nat.min_eq_right (by omega)
            rw [this, List.drop_length]
      have hlen' : (buff_advance c c.w1).body.length + (buff_advance c c.w1).w1 + 1 ≤ ks.length := by
        rw [hadv]
        dsimp only
        rw [List.length_drop, Nat.sub_add_cancel hfle]
        have hM : (1 : Nat) ≤ MSS := by decide
        simp only [List.length_cons] at hlen
        rw [hcase] at hlen
        omega
      have hks' : ∀ x ∈ ks, x = MSS := fun x hx => hks x (List.mem_cons_of_mem k hx)
      have hrec := ih (buff_advance c c.w1) hinv' hks' hlen'
      show run_writer c (k :: ks) = _
      unfold run_writer
      rw [hstep]
      dsimp only
      rw [hrec, hadv]
      dsimp only
      rw [hw0, List.drop_zero, List.take_left' htakelen, List.take_append_drop, hcase]
    · -- short final fill: the write closes the connection
      have hbody : c.body = [] := by
        rcases hlast with h | h
        · exact absurd h hcase
        · exact h
      have hyes : c.w1 = 0 ∨ c.w1 < MSS := by
        right
        omega
      have hstep : write_step c k = ((c.buff.drop c.w0).take c.w1, none) := by
        unfold write_step
        rw [hn, if_pos hyes]
      show run_writer c (k :: ks) = _
      unfold run_writer
      rw [hstep]
      dsimp only
      rw [hw0, List.drop_zero, hbody, List.append_nil]

theorem prepare_write_conn_eq (body headers0 : Bytes) :
    prepare_write_conn body headers0 =
      ⟨body.drop (MSS - (headers0 ++ "\r\n".toList).length),
       (headers0 ++ "\r\n".toList) ++
         body.take (min (MSS - (headers0 ++ "\r\n".toList).length) body.length) ++
         List.replicate (MSS - (headers0 ++ "\r\n".toList).length -
           min (MSS - (headers0 ++ "\r\n".toList).length) body.length) '\x00',
       0,
       (headers0 ++ "\r\n".toList).length +
         min (MSS - (headers0 ++ "\r\n".toList).length) body.length⟩ := rfl

/-- Claim C2 (amended): when every socket write accepts a full `MSS`
bytes — so each write consumes the whole current window — streaming a
body of any length through `prepare_write` and repeated `write_to`
events puts exactly the header bytes (with the appended `"\r\n"`)
followed by all body bytes on the wire, and closes the connection.
With smaller per-write capacities the final short fill can be truncated
(see the counterexample), so the claim holds only for full-window
writes. -/
theorem c2_roundtrip_amended (headers0 body : Bytes) (ks : List Nat)
    (hh : headers0.length + 2 ≤ MSS)
    (hks : ∀ k ∈ ks, k = MSS)
    (hlen : body.length + headers0.length + 3 ≤ ks.length) :
    run_writer (prepare_write_conn body headers0) ks =
      (headers0 ++ "\r\n".toList ++ body, none) := by
  rw [prepare_write_conn_eq]
  have hhl : (headers0 ++ "\r\n".toList).length = headers0.length + 2 := by
    rw [List.length_append]
    rfl
  set hdr := headers0 ++ "\r\n".toList with hhdr
  set h := hdr.length with hH
  set bw := min (MSS - h) body.length with hbwdef
  have hbw1 : bw ≤ MSS - h := Nat.min_le_left _ _
  have hbw2 : bw ≤ body.length := Nat.min_le_right _ _
  have hhM : h ≤ MSS := by omega
  have htakelen : (body.take bw).length = bw := by
    rw [List.length_take]
    exact Nat.min_eq_left hbw2
  have htdlen : (hdr ++ body.take bw).length = h + bw := by
    rw [List.length_append, htakelen]
  have hinv : WriterInv ⟨body.drop (MSS - h),
      hdr ++ body.take bw ++ List.replicate (MSS - h - bw) '\x00', 0, h + bw⟩ := by
    refine ⟨rfl, ?_, show h + bw ≤ MSS by omega, ?_⟩
    · show (hdr ++ body.take bw ++ List.replicate (MSS - h - bw) '\x00').length = MSS
      rw [List.length_append, List.length_append, htakelen, List.length_replicate]
      omega
    · by_cases hLb : body.length ≤ MSS - h
      · right
        show body.drop (MSS - h) = []
        exact List.drop_eq_nil_of_le hLb
      · left
        show h + bw = MSS
        have : bw = MSS - h := Nat.min_eq_left (by omega)
        omega
  have hlen' : (body.drop (MSS - h)).length + (h + bw) + 1 ≤ ks.length := by
    rw [List.length_drop]
    omega
  have hrun := run_writer_all_mss ks
    ⟨body.drop (MSS - h), hdr ++ body.take bw ++ List.replicate (MSS - h - bw) '\x00', 0, h + bw⟩
    hinv hks hlen'
  rw [hrun]
  dsimp only
  refine congrArg (fun z => (z, none)) ?_
  have htake : (hdr ++ body.take bw ++ List.replicate (MSS - h - bw) '\x00').take (h + bw) =
      hdr ++ body.take bw := List.take_left' htdlen
  rw [htake, List.append_assoc]
  refine congrArg (fun z => hdr ++ z) ?_
  by_cases hLb : body.length ≤ MSS - h
  · have hbwe : bw = body.length := Nat.min_eq_right hLb
    rw [hbwe, List.take_length, List.drop_eq_nil_of_le hLb, List.append_nil]
  · have hbwe : bw = MSS - h := Nat.min_eq_left (by omega)
    rw [hbwe, List.take_append_drop]

theorem c2_roundtrip_amended_witness :
    run_writer (prepare_write_conn "AB".toList []) (List.replicate 5 MSS) =
      (([] : Bytes) ++ "\r\n".toList ++ "AB".toList, none) :=
  c2_roundtrip_amended [] "AB".toList (List.replicate 5 MSS) (by decide)
    (fun k hk => List.eq_of_mem_replicate hk) (by decide)

theorem regInv_close (st : ServerState) (sid : Nat) (h : RegInv st) :
    RegInv (close_conn st sid) := by
  intro t
  by_cases ht : t = sid
  · subst ht
    constructor
    · intro hs
      rw [close_request_self] at hs
      simp at hs
    · intro hs
      rw [close_conns_self] at hs
      simp at hs
  · constructor
    · intro hs
      rw [close_request_other st sid t ht] at hs
      show mapSet st.poll sid none t = some Interest.pollin
      rw [mapSet_other _ _ _ _ ht]
      exact (h t).1 hs
    · intro hs
      rw [close_conns_other st sid t ht] at hs
      show mapSet st.poll sid none t = some Interest.pollout
      rw [mapSet_other _ _ _ _ ht]
      exact (h t).2 hs

theorem regInv_reqSet (st : ServerState) (sid : Nat) (v : Option Bytes) (h : RegInv st)
    (hp : st.poll sid = some Interest.pollin) :
    RegInv { st with request := mapSet st.request sid v } := by
  intro t
  by_cases ht : t = sid
  · subst ht
    constructor
    · intro _
      exact hp
    · intro hs
      have hpo := (h t).2 hs
      rw [hp] at hpo
      simp at hpo
  · constructor
    · intro hs
      show st.poll t = some Interest.pollin
      apply (h t).1
      have hs' : (mapSet st.request sid v t).isSome = true := hs
      rw [mapSet_other _ _ _ _ ht] at hs'
      exact hs'
    · exact fun hs => (h t).2 hs

theorem regInv_prepare (st : ServerState) (sid : Nat) (body hdr : Bytes) (i : Interest)
    (h : RegInv st) (hreq : st.request sid = none) (hp : st.poll sid = some i) :
    RegInv ((prepare_write_st st sid body hdr).1) := by
  have heq : prepare_write_st st sid body hdr =
      ({ st with conns := (mapSet st.conns sid (some (prepare_write_conn body hdr))),
                 poll := (mapSet st.poll sid (some Interest.pollout)) }, Except.ok ()) := by
    unfold prepare_write_st
    dsimp only
    rw [hp]
  rw [heq]
  intro t
  by_cases ht : t = sid
  · subst ht
    constructor
    · intro hs
      have hs' : (st.request t).isSome = true := hs
      rw [hreq] at hs'
      simp at hs'
    · intro _
      exact mapSet_self _ _ _
  · constructor
    · intro hs
      show mapSet st.poll sid (some Interest.pollout) t = some Interest.pollin
      rw [mapSet_other _ _ _ _ ht]
      exact (h t).1 hs
    · intro hs
      show mapSet st.poll sid (some Interest.pollout) t = some Interest.pollout
      rw [mapSet_other _ _ _ _ ht]
      apply (h t).2
      have hs' : (mapSet st.conns sid (some (prepare_write_conn body hdr)) t).isSome = true := hs
      rw [mapSet_other _ _ _ _ ht] at hs'
      exact hs'

theorem check_route_req_redirect_none (lip : Bytes) (conn : Bool)
    (routes : List (Bytes × Bytes)) (req : ReqInfo) (out : CheckOut)
    (h : check_route_req lip conn routes req = Except.ok out)
    (hr : out.redirectCall.isSome = true) : out.headers = none := by
  simp only [check_route_req, check_route_after_host] at h
  split at h
  · injection h with h2
    rw [← h2] at hr
    simp at hr
  · split at h
    · injection h with h2
      rw [← h2] at hr
      simp at hr
    · split at h
      · injection h with h2
        rw [← h2]
      · split at h
        · exact absurd h (by simp)
        · split at h
          · injection h with h2
            rw [← h2] at hr
            simp at hr
          · split at h
            · split at h
              · injection h with h2
                rw [← h2]
              · injection h with h2
                rw [← h2] at hr
                simp at hr
            · injection h with h2
              rw [← h2] at hr
              simp at hr

theorem check_route_st_state (st : ServerState) (sid : Nat) (raw : Bytes) :
    (check_route_st st sid raw).1 = st ∨
    ((∃ b hd, (check_route_st st sid raw).1 = (prepare_write_st st sid b hd).1) ∧
     ∀ v, (check_route_st st sid raw).2 = Except.ok v → v.1 = none) := by
  unfold check_route_st
  cases hp : parse_request raw with
  | error e => left; rfl
  | ok req =>
    dsimp only
    cases hc : check_route_req st.local_ip st.is_connected st.routes req with
    | error e => left; rfl
    | ok out =>
      dsimp only
      cases hrc : out.redirectCall with
      | none => left; rfl
      | some hp2 =>
        right
        constructor
        · exact ⟨redirect_body, redirect_headers hp2.1 hp2.2, rfl⟩
        · intro v hv
          dsimp only at hv
          cases hr2 : (prepare_write_st st sid redirect_body (redirect_headers hp2.1 hp2.2)).2 with
          | error e =>
            rw [hr2] at hv
            exact absurd hv (by simp)
          | ok u =>
            rw [hr2] at hv
            injection hv with hv2
            rw [← hv2]
            exact check_route_req_redirect_none st.local_ip st.is_connected st.routes req out hc
              (by rw [hrc]; rfl)

theorem regInv_check_route (st : ServerState) (sid : Nat) (raw : Bytes) (i : Interest)
    (h : RegInv st) (hreq : st.request sid = none) (hp : st.poll sid = some i) :
    RegInv ((check_route_st st sid raw).1) := by
  rcases check_route_st_state st sid raw with heq | ⟨⟨b, hd, heq⟩, -⟩
  · rw [heq]; exact h
  · rw [heq]; exact regInv_prepare st sid b hd i h hreq hp

theorem regInv_read_complete (st : ServerState) (sid : Nat) (raw : Bytes) (i : Interest)
    (h : RegInv st) (hreq : st.request sid = none) (hp : st.poll sid = some i) :
    RegInv ((read_complete st sid raw).1) := by
  unfold read_complete
  rcases hcr : check_route_st st sid raw with ⟨st3, res⟩
  have hst3 : RegInv st3 := by
    have hx := regInv_check_route st sid raw i h hreq hp
    rw [hcr] at hx
    exact hx
  rcases res with e | val
  · exact hst3
  · rcases val with ⟨hdrs, bp, creds⟩
    rcases hdrs with _ | hdrs
    · exact hst3
    · dsimp only
      rcases check_route_st_state st sid raw with heq | ⟨-, hnone⟩
      · -- check_route left the state alone: st3 = st
        have hst3eq : st3 = st := by
          rw [hcr] at heq
          exact heq
        subst hst3eq
        rcases hsr : send_response_st st3 sid (choose_route st3 bp) hdrs with ⟨st4, r2⟩
        have h4 : (send_response_st st3 sid (choose_route st3 bp) hdrs).1 = st4 := by
          rw [hsr]
        have hx : RegInv ((send_response_st st3 sid (choose_route st3 bp) hdrs).1) :=
          regInv_prepare st3 sid _ hdrs i h hreq hp
        rw [h4] at hx
        rcases r2 with e | u
        · exact hx
        · exact hx
      · -- check_route streamed a redirect, so its value has no headers: contradiction
        exfalso
        have hv := hnone (some hdrs, bp, creds) (by rw [hcr])
        simp at hv

theorem regInv_read (st : ServerState) (sid : Nat) (data : Bytes)
    (h : RegInv st) (hp : st.poll sid = some Interest.pollin) :
    RegInv ((read_st st sid data).1) := by
  unfold read_st
  by_cases hd : data = []
  · rw [if_pos hd]
    exact regInv_close st sid h
  · rw [if_neg hd]
    by_cases hterm : data.drop (data.length - 4) ≠ "\r\n\r\n".toList
    · rw [if_pos hterm]
      exact regInv_reqSet st sid _ h hp
    · rw [if_neg hterm]
      dsimp only
      have hinv1 : RegInv { st with
          request := (mapSet st.request sid (some ((st.request sid).getD [] ++ data))) } :=
        regInv_reqSet st sid _ h hp
      have hinv2 : RegInv { st with
          request := (mapSet (mapSet st.request sid (some ((st.request sid).getD [] ++ data))) sid none) } := by
        have hx := regInv_reqSet { st with
            request := (mapSet st.request sid (some ((st.request sid).getD [] ++ data))) }
          sid none hinv1 hp
        rw [mapSet_mapSet] at hx ⊢
        exact hx
      have hreq2 : ({ st with
          request := (mapSet (mapSet st.request sid (some ((st.request sid).getD [] ++ data))) sid none) } : ServerState).request sid = none :=
        mapSet_self _ _ _
      exact regInv_read_complete _ sid _ Interest.pollin hinv2 hreq2 hp

theorem regInv_step (st : ServerState) (ev : Event) (h : RegInv st) : RegInv (stepEv st ev) := by
  unfold stepEv
  by_cases hv : validEvent st ev = true
  · rw [if_pos hv]
    cases ev with
    | accept sid =>
      unfold validEvent at hv
      have hpoll : st.poll sid = none := Option.isNone_iff_eq_none.mp hv
      intro t
      by_cases ht : t = sid
      · subst ht
        constructor
        · intro _
          exact mapSet_self _ _ _
        · intro hs
          have hpo := (h t).2 hs
          rw [hpoll] at hpo
          simp at hpo
      · constructor
        · intro hs
          show mapSet st.poll sid (some Interest.pollin) t = some Interest.pollin
          rw [mapSet_other _ _ _ _ ht]
          exact (h t).1 hs
        · intro hs
          show mapSet st.poll sid (some Interest.pollin) t = some Interest.pollout
          rw [mapSet_other _ _ _ _ ht]
          exact (h t).2 hs
    | readE sid data =>
      unfold validEvent at hv
      have hp : st.poll sid = some Interest.pollin := of_decide_eq_true hv
      exact regInv_read st sid data h hp
    | writeE sid k =>
      unfold validEvent at hv
      have hp : st.poll sid = some Interest.pollout := of_decide_eq_true hv
      show RegInv ((write_to_st st sid k).1)
      unfold write_to_st
      cases hcs : st.conns sid with
      | none => exact h
      | some c =>
        dsimp only
        rcases hws : write_step c k with ⟨out, copt⟩
        rcases copt with _ | c2
        · exact regInv_close st sid h
        · dsimp only
          intro t
          by_cases ht : t = sid
          · subst ht
            constructor
            · intro hs
              have hpi := (h t).1 hs
              rw [hp] at hpi
              simp at hpi
            · intro _
              exact hp
          · constructor
            · intro hs
              exact (h t).1 hs
            · intro hs
              apply (h t).2
              have hs' : (mapSet st.conns sid (some c2) t).isSome = true := hs
              rw [mapSet_other _ _ _ _ ht] at hs'
              exact hs'
    | setIp ip => exact h
  · rw [if_neg hv]
    exact h

theorem regInv_runEvents (evs : List Event) : ∀ st : ServerState,
    RegInv st → RegInv (runEvents st evs) := by
  induction evs with
  | nil => intro st h; exact h
  | cons ev evs ih =>
    intro st h
    exact ih _ (regInv_step st ev h)

/-- Claim C9: in every state reachable by dispatched events from server
startup, no connection has both an inbound request buffer entry and an
outbound write state entry.  (The strengthened invariant `RegInv` shows
why: inbound entries exist only for read-registered sockets, outbound
entries only for write-registered ones, and the outbound entry is
created by `prepare_write` only after `read` has popped the inbound
buffer; `close` removes whichever exists.) -/
theorem c9_no_dual_state (lip : Bytes) (routes : List (Bytes × Bytes))
    (files : Bytes → Bytes) (page : Bytes) (evs : List Event) (sid : Nat) :
    ¬(((runEvents (initHTTP lip routes files page) evs).request sid).isSome = true ∧
      ((runEvents (initHTTP lip routes files page) evs).conns sid).isSome = true) := by
  rintro ⟨h1, h2⟩
  have hinv : RegInv (initHTTP lip routes files page) := by
    intro t
    constructor <;> intro hs <;> simp [initHTTP] at hs
  have hrun := regInv_runEvents evs _ hinv
  have ha := (hrun sid).1 h1
  have hb := (hrun sid).2 h2
  rw [ha] at hb
  simp at hb
